import Mathlib

/-!
Shallow embedding of the LASO Search geometry and viewport-fit engine
(`config.example.js`).  JavaScript IEEE numbers are modelled as real
numbers; JavaScript `Infinity` appearing in intermediate values is
modelled by `Option ℝ` (for the fit-scale ratios) and by `WithTop ℝ`
(for the minimum edge distance), matching the way the source only ever
compares or `min`s those values.  The external Leaflet map widget is
modelled as an abstract projection capability (`ProjCap`) with no
assumed laws, exactly as the spec treats it.
-/

open Real

/-- A latitude/longitude pair, as the `[lat, lng]` arrays of the source. -/
structure LatLng where
  lat : ℝ
  lng : ℝ

instance : Inhabited LatLng := ⟨⟨0, 0⟩⟩

/-- A pixel point, as Leaflet `L.point(x, y)`. -/
structure Pt where
  x : ℝ
  y : ℝ

/-- The external Leaflet projection capability: `mapObj.project` /
`mapObj.unproject` at a given zoom.  No laws are assumed. -/
structure ProjCap where
  project : LatLng → ℝ → Pt
  unproject : Pt → ℝ → LatLng

/-- Result record of `calculatePolygonFit`: `{ center, zoom }`. -/
structure FitResult where
  center : LatLng
  zoom : ℝ

/-- Indexing `pts[i]` on a `[lat, lng]` list (in-bounds wherever the source
reads it). -/
def getI (l : List LatLng) (i : ℕ) : LatLng := l.getD i default

/-- Fold of `min` over `f` on a nonempty list `h :: t`, as the source's
`for` scans that start from `Infinity`: for a nonempty list the scan equals
the fold started at the first element. -/
noncomputable def listMin (f : LatLng → ℝ) (h : LatLng) (t : List LatLng) : ℝ :=
  t.foldl (fun a p => min a (f p)) (f h)

/-- Fold of `max` over `f` on a nonempty list `h :: t` (scan from `-Infinity`). -/
noncomputable def listMax (f : LatLng → ℝ) (h : LatLng) (t : List LatLng) : ℝ :=
  t.foldl (fun a p => max a (f p)) (f h)

/-- Minimum projected world-pixel x over the ring at zoom `z` (`minWx`). -/
noncomputable def projMinX (m : ProjCap) (z : ℝ) (h : LatLng) (t : List LatLng) : ℝ :=
  listMin (fun p => (m.project p z).x) h t

/-- Maximum projected world-pixel x over the ring at zoom `z` (`maxWx`). -/
noncomputable def projMaxX (m : ProjCap) (z : ℝ) (h : LatLng) (t : List LatLng) : ℝ :=
  listMax (fun p => (m.project p z).x) h t

/-- Minimum projected world-pixel y over the ring at zoom `z` (`minWy`). -/
noncomputable def projMinY (m : ProjCap) (z : ℝ) (h : LatLng) (t : List LatLng) : ℝ :=
  listMin (fun p => (m.project p z).y) h t

/-- Maximum projected world-pixel y over the ring at zoom `z` (`maxWy`). -/
noncomputable def projMaxY (m : ProjCap) (z : ℝ) (h : LatLng) (t : List LatLng) : ℝ :=
  listMax (fun p => (m.project p z).y) h t

/-- `polygon.getBounds().getCenter()`: Leaflet's bounding-box center, the
midpoint of the latitude extremes paired with the midpoint of the longitude
extremes. -/
noncomputable def polygonBoundsCenter (h : LatLng) (t : List LatLng) : LatLng :=
  ⟨(listMin LatLng.lat h t + listMax LatLng.lat h t) / 2,
   (listMin LatLng.lng h t + listMax LatLng.lng h t) / 2⟩

/-- JavaScript `min(a, b)` where either side may be `Infinity` (`none`);
`min(x, Infinity) = x`.  The `none, none` case is unreachable in
`calculatePolygonFit` (guarded earlier); its value is irrelevant. -/
noncomputable def jsMinInf : Option ℝ → Option ℝ → ℝ
  | some a, some b => min a b
  | some a, none => a
  | none, some b => b
  | none, none => 0

/-- `calculatePolygonFit(polygon, mapObj, padTop, padRight, padBottom, padLeft)`
from `config.example.js`.  The polygon's outer ring is the nonempty list
`h :: t` (Leaflet rings of drawn polygons are nonempty); `size` is
`mapObj.getSize()` and `refZ` is `mapObj.getZoom()`. -/
noncomputable def calculatePolygonFit (m : ProjCap) (size : Pt) (refZ : ℝ)
    (h : LatLng) (t : List LatLng)
    (padTop padRight padBottom padLeft : ℝ) : FitResult :=
  let minWx := projMinX m refZ h t
  let maxWx := projMaxX m refZ h t
  let minWy := projMinY m refZ h t
  let maxWy := projMaxY m refZ h t
  let contentW := maxWx - minWx
  let contentH := maxWy - minWy
  if contentW = 0 ∧ contentH = 0 then
    ⟨polygonBoundsCenter h t, refZ⟩
  else
    let availW := size.x - padLeft - padRight
    let availH := size.y - padTop - padBottom
    if availW ≤ 0 ∨ availH ≤ 0 then
      ⟨polygonBoundsCenter h t, refZ⟩
    else
      let ratioW : Option ℝ := if 0 < contentW then some (availW / contentW) else none
      let ratioH : Option ℝ := if 0 < contentH then some (availH / contentH) else none
      let scale := jsMinInf ratioW ratioH
      let targetZoom := refZ + Real.logb 2 scale
      let midWx := (minWx + maxWx) / 2
      let midWy := (minWy + maxWy) / 2
      let contentCenter := m.unproject ⟨midWx, midWy⟩ refZ
      let offsetX := (padRight - padLeft) / 2
      let offsetY := (padBottom - padTop) / 2
      let ccAtTarget := m.project contentCenter targetZoom
      let mapCenter := m.unproject ⟨ccAtTarget.x + offsetX, ccAtTarget.y + offsetY⟩ targetZoom
      ⟨mapCenter, targetZoom⟩

/-- A `min`-fold never exceeds its start value. -/
theorem foldl_min_le_init {α β : Type} [LinearOrder β] (f : α → β) :
    ∀ (t : List α) (a : β), t.foldl (fun b p => min b (f p)) a ≤ a := by
  intro t
  induction t with
  | nil => intro a; simp
  | cons p t ih => intro a; exact le_trans (ih (min a (f p))) (min_le_left _ _)

/-- A `max`-fold is at least its start value. -/
theorem init_le_foldl_max {α β : Type} [LinearOrder β] (f : α → β) :
    ∀ (t : List α) (a : β), a ≤ t.foldl (fun b p => max b (f p)) a := by
  intro t
  induction t with
  | nil => intro a; simp
  | cons p t ih => intro a; exact le_trans (le_max_left _ _) (ih (max a (f p)))

/-- A `max`-fold is bounded by any bound of its start value and entries. -/
theorem foldl_max_le {α β : Type} [LinearOrder β] (f : α → β) (c : β) :
    ∀ (t : List α) (a : β), a ≤ c → (∀ x ∈ t, f x ≤ c) →
      t.foldl (fun b p => max b (f p)) a ≤ c := by
  intro t
  induction t with
  | nil => intro a ha _; simpa using ha
  | cons p t ih =>
    intro a ha hall
    exact ih (max a (f p)) (max_le ha (hall p (List.mem_cons_self p t)))
      fun x hx => hall x (List.mem_cons_of_mem _ hx)

/-- A `max`-fold dominates every entry. -/
theorem le_foldl_max {α β : Type} [LinearOrder β] (f : α → β) :
    ∀ (t : List α) (a : β) (x : α), x ∈ t →
      f x ≤ t.foldl (fun b p => max b (f p)) a := by
  intro t
  induction t with
  | nil => intro a x hx; cases hx
  | cons p t ih =>
    intro a x hx
    rcases List.mem_cons.mp hx with rfl | hx
    · exact le_trans (le_max_right _ _) (init_le_foldl_max f t (max a (f x)))
    · exact ih (max a (f p)) x hx

/-- The projected minimum x never exceeds the projected maximum x, so the
content dimensions of `calculatePolygonFit` are nonnegative. -/
theorem projMinX_le_projMaxX (m : ProjCap) (z : ℝ) (h : LatLng) (t : List LatLng) :
    projMinX m z h t ≤ projMaxX m z h t :=
  le_trans (foldl_min_le_init _ t _) (init_le_foldl_max _ t _)

/-- Same for the y extremes. -/
theorem projMinY_le_projMaxY (m : ProjCap) (z : ℝ) (h : LatLng) (t : List LatLng) :
    projMinY m z h t ≤ projMaxY m z h t :=
  le_trans (foldl_min_le_init _ t _) (init_le_foldl_max _ t _)

/-- C1: for every polygon ring and padding quadruple with both available
canvas dimensions strictly positive and at least one projected content
dimension nonzero, `calculatePolygonFit` returns
`zoom = referenceZoom + log2(scale)` with
`scale = min(availW/contentW, availH/contentH)`, a zero content dimension
making that axis unconstrained so the other axis alone determines scale. -/
theorem calculatePolygonFit_zoom_eq (m : ProjCap) (size : Pt) (refZ : ℝ)
    (h : LatLng) (t : List LatLng) (padTop padRight padBottom padLeft : ℝ)
    (hW : 0 < size.x - padLeft - padRight)
    (hH : 0 < size.y - padTop - padBottom)
    (hc : 0 < projMaxX m refZ h t - projMinX m refZ h t ∨
          0 < projMaxY m refZ h t - projMinY m refZ h t) :
    (calculatePolygonFit m size refZ h t padTop padRight padBottom padLeft).zoom =
      refZ + Real.logb 2
        (if projMaxX m refZ h t - projMinX m refZ h t = 0 then
            (size.y - padTop - padBottom) / (projMaxY m refZ h t - projMinY m refZ h t)
          else if projMaxY m refZ h t - projMinY m refZ h t = 0 then
            (size.x - padLeft - padRight) / (projMaxX m refZ h t - projMinX m refZ h t)
          else
            min ((size.x - padLeft - padRight) / (projMaxX m refZ h t - projMinX m refZ h t))
                ((size.y - padTop - padBottom) / (projMaxY m refZ h t - projMinY m refZ h t))) := by
  have hnotboth : ¬(projMaxX m refZ h t - projMinX m refZ h t = 0 ∧
      projMaxY m refZ h t - projMinY m refZ h t = 0) := by
    rcases hc with hx | hy
    · exact fun ⟨e, _⟩ => absurd e (ne_of_gt hx)
    · exact fun ⟨_, e⟩ => absurd e (ne_of_gt hy)
  unfold calculatePolygonFit
  rw [if_neg hnotboth, if_neg (by push_neg; exact ⟨hW, hH⟩)]
  rcases lt_or_eq_of_le (sub_nonneg.mpr (projMinX_le_projMaxX m refZ h t)) with hx | hx
  · rcases lt_or_eq_of_le (sub_nonneg.mpr (projMinY_le_projMaxY m refZ h t)) with hy | hy
    · rw [if_pos hx, if_pos hy, if_neg (ne_of_gt hx), if_neg (ne_of_gt hy)]
      rfl
    · rw [if_pos hx, if_neg (by rw [← hy]; exact lt_irrefl 0),
        if_neg (ne_of_gt hx), if_pos hy.symm]
      rfl
  · rcases hc with hc | hc
    · exact absurd hx (ne_of_gt hc).symm
    · rw [if_neg (by rw [← hx]; exact lt_irrefl 0), if_pos hc, if_pos hx.symm]
      rfl

/-- C1 witness at a concrete ring, canvas and padding. -/
noncomputable def testProj : ProjCap :=
  ⟨fun p _ => ⟨p.lng, p.lat⟩, fun q _ => ⟨q.y, q.x⟩⟩

theorem calculatePolygonFit_zoom_eq_witness :
    (0 < (100 : ℝ) - 10 - 10 ∧
      0 < projMaxX testProj 0 ⟨0, 0⟩ [⟨1, 2⟩] - projMinX testProj 0 ⟨0, 0⟩ [⟨1, 2⟩]) ∧
    (calculatePolygonFit testProj ⟨100, 100⟩ 0 ⟨0, 0⟩ [⟨1, 2⟩] 10 10 10 10).zoom =
      0 + Real.logb 2
        (if projMaxX testProj 0 ⟨0, 0⟩ [⟨1, 2⟩] - projMinX testProj 0 ⟨0, 0⟩ [⟨1, 2⟩] = 0 then
            ((100 : ℝ) - 10 - 10) /
              (projMaxY testProj 0 ⟨0, 0⟩ [⟨1, 2⟩] - projMinY testProj 0 ⟨0, 0⟩ [⟨1, 2⟩])
          else if projMaxY testProj 0 ⟨0, 0⟩ [⟨1, 2⟩] - projMinY testProj 0 ⟨0, 0⟩ [⟨1, 2⟩] = 0 then
            ((100 : ℝ) - 10 - 10) /
              (projMaxX testProj 0 ⟨0, 0⟩ [⟨1, 2⟩] - projMinX testProj 0 ⟨0, 0⟩ [⟨1, 2⟩])
          else
            min (((100 : ℝ) - 10 - 10) /
                  (projMaxX testProj 0 ⟨0, 0⟩ [⟨1, 2⟩] - projMinX testProj 0 ⟨0, 0⟩ [⟨1, 2⟩]))
                (((100 : ℝ) - 10 - 10) /
                  (projMaxY testProj 0 ⟨0, 0⟩ [⟨1, 2⟩] - projMinY testProj 0 ⟨0, 0⟩ [⟨1, 2⟩]))) := by
  refine ⟨⟨by norm_num, ?_⟩, ?_⟩
  · simp [projMaxX, projMinX, listMax, listMin, testProj]
  · exact calculatePolygonFit_zoom_eq testProj ⟨100, 100⟩ 0 ⟨0, 0⟩ [⟨1, 2⟩] 10 10 10 10
      (by norm_num) (by norm_num)
      (Or.inl (by simp [projMaxX, projMinX, listMax, listMin, testProj]))

/-- C2: under the same non-degenerate conditions, the returned center is the
midpoint of the projected extremes at the reference zoom, unprojected at the
reference zoom, re-projected at the target zoom, shifted by
`(padRight - padLeft)/2` horizontally and `(padBottom - padTop)/2`
vertically, and unprojected at the target zoom. -/
theorem calculatePolygonFit_center_eq (m : ProjCap) (size : Pt) (refZ : ℝ)
    (h : LatLng) (t : List LatLng) (padTop padRight padBottom padLeft : ℝ)
    (hW : 0 < size.x - padLeft - padRight)
    (hH : 0 < size.y - padTop - padBottom)
    (hc : 0 < projMaxX m refZ h t - projMinX m refZ h t ∨
          0 < projMaxY m refZ h t - projMinY m refZ h t) :
    (calculatePolygonFit m size refZ h t padTop padRight padBottom padLeft).center =
      m.unproject
        ⟨(m.project
            (m.unproject
              ⟨(projMinX m refZ h t + projMaxX m refZ h t) / 2,
               (projMinY m refZ h t + projMaxY m refZ h t) / 2⟩ refZ)
            ((calculatePolygonFit m size refZ h t padTop padRight padBottom padLeft).zoom)).x
            + (padRight - padLeft) / 2,
         (m.project
            (m.unproject
              ⟨(projMinX m refZ h t + projMaxX m refZ h t) / 2,
               (projMinY m refZ h t + projMaxY m refZ h t) / 2⟩ refZ)
            ((calculatePolygonFit m size refZ h t padTop padRight padBottom padLeft).zoom)).y
            + (padBottom - padTop) / 2⟩
        ((calculatePolygonFit m size refZ h t padTop padRight padBottom padLeft).zoom) := by
  have hnotboth : ¬(projMaxX m refZ h t - projMinX m refZ h t = 0 ∧
      projMaxY m refZ h t - projMinY m refZ h t = 0) := by
    rcases hc with hx | hy
    · exact fun ⟨e, _⟩ => absurd e (ne_of_gt hx)
    · exact fun ⟨_, e⟩ => absurd e (ne_of_gt hy)
  unfold calculatePolygonFit
  rw [if_neg hnotboth, if_neg (by push_neg; exact ⟨hW, hH⟩)]

/-- C2 witness at a concrete ring, canvas and padding. -/
theorem calculatePolygonFit_center_eq_witness :
    (0 < (100 : ℝ) - 10 - 10 ∧
      0 < projMaxX testProj 0 ⟨0, 0⟩ [⟨1, 2⟩] - projMinX testProj 0 ⟨0, 0⟩ [⟨1, 2⟩]) ∧
    (calculatePolygonFit testProj ⟨100, 100⟩ 0 ⟨0, 0⟩ [⟨1, 2⟩] 10 10 10 10).center =
      testProj.unproject
        ⟨(testProj.project
            (testProj.unproject
              ⟨(projMinX testProj 0 ⟨0, 0⟩ [⟨1, 2⟩] + projMaxX testProj 0 ⟨0, 0⟩ [⟨1, 2⟩]) / 2,
               (projMinY testProj 0 ⟨0, 0⟩ [⟨1, 2⟩] + projMaxY testProj 0 ⟨0, 0⟩ [⟨1, 2⟩]) / 2⟩ 0)
            ((calculatePolygonFit testProj ⟨100, 100⟩ 0 ⟨0, 0⟩ [⟨1, 2⟩] 10 10 10 10).zoom)).x
            + ((10 : ℝ) - 10) / 2,
         (testProj.project
            (testProj.unproject
              ⟨(projMinX testProj 0 ⟨0, 0⟩ [⟨1, 2⟩] + projMaxX testProj 0 ⟨0, 0⟩ [⟨1, 2⟩]) / 2,
               (projMinY testProj 0 ⟨0, 0⟩ [⟨1, 2⟩] + projMaxY testProj 0 ⟨0, 0⟩ [⟨1, 2⟩]) / 2⟩ 0)
            ((calculatePolygonFit testProj ⟨100, 100⟩ 0 ⟨0, 0⟩ [⟨1, 2⟩] 10 10 10 10).zoom)).y
            + ((10 : ℝ) - 10) / 2⟩
        ((calculatePolygonFit testProj ⟨100, 100⟩ 0 ⟨0, 0⟩ [⟨1, 2⟩] 10 10 10 10).zoom) := by
  refine ⟨⟨by norm_num, by simp [projMaxX, projMinX, listMax, listMin, testProj]⟩, ?_⟩
  exact calculatePolygonFit_center_eq testProj ⟨100, 100⟩ 0 ⟨0, 0⟩ [⟨1, 2⟩] 10 10 10 10
    (by norm_num) (by norm_num)
    (Or.inl (by simp [projMaxX, projMinX, listMax, listMin, testProj]))

/-- C4: degenerate inputs are handled without division: a nonpositive
available canvas dimension returns the bounding-box center at the reference
zoom, and zero content dimensions on both axes (all vertices projecting to
one point) also return the bounding-box center at the reference zoom. -/
theorem calculatePolygonFit_degenerate (m : ProjCap) (size : Pt) (refZ : ℝ)
    (h : LatLng) (t : List LatLng) (padTop padRight padBottom padLeft : ℝ) :
    ((size.x - padLeft - padRight ≤ 0 ∨ size.y - padTop - padBottom ≤ 0) →
      calculatePolygonFit m size refZ h t padTop padRight padBottom padLeft =
        ⟨polygonBoundsCenter h t, refZ⟩) ∧
    ((projMaxX m refZ h t - projMinX m refZ h t = 0 ∧
      projMaxY m refZ h t - projMinY m refZ h t = 0) →
      calculatePolygonFit m size refZ h t padTop padRight padBottom padLeft =
        ⟨polygonBoundsCenter h t, refZ⟩) := by
  constructor
  · intro hav
    unfold calculatePolygonFit
    by_cases hboth : projMaxX m refZ h t - projMinX m refZ h t = 0 ∧
        projMaxY m refZ h t - projMinY m refZ h t = 0
    · rw [if_pos hboth]
    · rw [if_neg hboth, if_pos hav]
  · intro hboth
    unfold calculatePolygonFit
    rw [if_pos hboth]

/-- C4 witness: a two-point ring of coincident vertices on a canvas fully
consumed by padding satisfies both degenerate conditions. -/
theorem calculatePolygonFit_degenerate_witness :
    (((100 : ℝ) - 60 - 60 ≤ 0 ∨ (100 : ℝ) - 10 - 10 ≤ 0) ∧
      (projMaxX testProj 0 ⟨1, 2⟩ [⟨1, 2⟩] - projMinX testProj 0 ⟨1, 2⟩ [⟨1, 2⟩] = 0 ∧
       projMaxY testProj 0 ⟨1, 2⟩ [⟨1, 2⟩] - projMinY testProj 0 ⟨1, 2⟩ [⟨1, 2⟩] = 0)) ∧
    calculatePolygonFit testProj ⟨100, 100⟩ 0 ⟨1, 2⟩ [⟨1, 2⟩] 10 60 10 60 =
      ⟨polygonBoundsCenter ⟨1, 2⟩ [⟨1, 2⟩], 0⟩ := by
  refine ⟨⟨Or.inl (by norm_num), ?_, ?_⟩, ?_⟩
  · simp [projMaxX, projMinX, listMax, listMin, testProj]
  · simp [projMaxY, projMinY, listMax, listMin, testProj]
  · exact (calculatePolygonFit_degenerate testProj ⟨100, 100⟩ 0 ⟨1, 2⟩ [⟨1, 2⟩] 10 60 10 60).1
      (Or.inl (by norm_num))

/-- JavaScript `Math.round`: round half toward positive infinity. -/
noncomputable def jsRound (x : ℝ) : ℤ := ⌊x + 1 / 2⌋

/-- One vertex of the ring projects outside the visible canvas
(`cp.x < 0 || cp.x > size.x || cp.y < 0 || cp.y > size.y`). -/
noncomputable def vertexOutOfCanvas (toContainer : LatLng → Pt) (size : Pt) (p : LatLng) : Bool :=
  decide ((toContainer p).x < 0) || decide (size.x < (toContainer p).x) ||
    decide ((toContainer p).y < 0) || decide (size.y < (toContainer p).y)

/-- Some ring vertex is outside the canvas at completion time. -/
noncomputable def freehandOutOfBounds (toContainer : LatLng → Pt) (size : Pt)
    (ring : List LatLng) : Bool :=
  ring.any (vertexOutOfCanvas toContainer size)

/-- The geometric tail of `closeFreehandPolygon`: rejects fewer than 3 drawn
points, closes the ring by repeating the first point, records the rounded
drawing zoom, drops the floor by one when a vertex left the canvas, runs the
10-px auto-fit and clamps its zoom to `[fitFloor, fitFloor + 0.99]`; returns
the `(center, zoom)` pair passed to `map.flyTo`. -/
noncomputable def closeFreehandPolygon (m : ProjCap) (toContainer : LatLng → Pt)
    (size : Pt) (mapZoom : ℝ) (drawingPoints : List LatLng) : Option (LatLng × ℝ) :=
  if drawingPoints.length < 3 then none
  else
    match drawingPoints with
    | [] => none
    | q :: qs =>
      let ring := q :: (qs ++ [q])
      let drawingZoom := jsRound mapZoom
      let fitFloor : ℤ :=
        if freehandOutOfBounds toContainer size ring then drawingZoom - 1 else drawingZoom
      let fit := calculatePolygonFit m size mapZoom q (qs ++ [q]) 10 10 10 10
      some (fit.center, max (fitFloor : ℝ) (min ((fitFloor : ℝ) + 0.99) fit.zoom))

/-- C3: whenever `closeFreehandPolygon` accepts a drawing (at least 3 drawn
points), the zoom passed to the camera animation lies in
`[drawZoomFloor, drawZoomFloor + 1)`, where `drawZoomFloor` is the rounded
zoom at which the user drew, decremented by one if any closed-ring vertex
projects outside the visible canvas. -/
theorem closeFreehandPolygon_zoom_clamped (m : ProjCap) (toContainer : LatLng → Pt)
    (size : Pt) (mapZoom : ℝ) (drawingPoints : List LatLng)
    (hlen : 3 ≤ drawingPoints.length) :
    (closeFreehandPolygon m toContainer size mapZoom drawingPoints).isSome = true ∧
    ∀ z ∈ (closeFreehandPolygon m toContainer size mapZoom drawingPoints).map Prod.snd,
      ((if freehandOutOfBounds toContainer size
            (drawingPoints ++ [drawingPoints.headI]) then
          jsRound mapZoom - 1 else jsRound mapZoom : ℤ) : ℝ) ≤ z ∧
      z < ((if freehandOutOfBounds toContainer size
            (drawingPoints ++ [drawingPoints.headI]) then
          jsRound mapZoom - 1 else jsRound mapZoom : ℤ) : ℝ) + 1 := by
  match drawingPoints, hlen with
  | q :: qs, hlen =>
    unfold closeFreehandPolygon
    rw [if_neg (not_lt.mpr hlen)]
    constructor
    · rfl
    · intro z hz
      simp only [Option.map_some', Option.mem_def, Option.some.injEq] at hz
      subst hz
      simp only [List.headI, List.cons_append]
      set f : ℝ := ((if freehandOutOfBounds toContainer size (q :: (qs ++ [q])) then
          jsRound mapZoom - 1 else jsRound mapZoom : ℤ) : ℝ) with hf
      refine ⟨le_max_left _ _, ?_⟩
      have h1 : min (f + 0.99) (calculatePolygonFit m size mapZoom q (qs ++ [q])
          10 10 10 10).zoom ≤ f + 0.99 := min_le_left _ _
      have h2 : max f (min (f + 0.99) (calculatePolygonFit m size mapZoom q (qs ++ [q])
          10 10 10 10).zoom) ≤ f + 0.99 := max_le (by norm_num) h1
      calc max f (min (f + 0.99) (calculatePolygonFit m size mapZoom q (qs ++ [q])
            10 10 10 10).zoom) ≤ f + 0.99 := h2
        _ < f + 1 := by norm_num

/-- C3 witness at a concrete three-point drawing. -/
theorem closeFreehandPolygon_zoom_clamped_witness :
    3 ≤ ([⟨0, 0⟩, ⟨1, 2⟩, ⟨2, 0⟩] : List LatLng).length ∧
    ((closeFreehandPolygon testProj (fun p => ⟨p.lng, p.lat⟩) ⟨100, 100⟩ 5
        [⟨0, 0⟩, ⟨1, 2⟩, ⟨2, 0⟩]).isSome = true ∧
    ∀ z ∈ (closeFreehandPolygon testProj (fun p => ⟨p.lng, p.lat⟩) ⟨100, 100⟩ 5
        [⟨0, 0⟩, ⟨1, 2⟩, ⟨2, 0⟩]).map Prod.snd,
      ((if freehandOutOfBounds (fun p => ⟨p.lng, p.lat⟩) ⟨100, 100⟩
            ([⟨0, 0⟩, ⟨1, 2⟩, ⟨2, 0⟩] ++ [([⟨0, 0⟩, ⟨1, 2⟩, ⟨2, 0⟩] : List LatLng).headI]) then
          jsRound 5 - 1 else jsRound 5 : ℤ) : ℝ) ≤ z ∧
      z < ((if freehandOutOfBounds (fun p => ⟨p.lng, p.lat⟩) ⟨100, 100⟩
            ([⟨0, 0⟩, ⟨1, 2⟩, ⟨2, 0⟩] ++ [([⟨0, 0⟩, ⟨1, 2⟩, ⟨2, 0⟩] : List LatLng).headI]) then
          jsRound 5 - 1 else jsRound 5 : ℤ) : ℝ) + 1) :=
  ⟨by norm_num,
   closeFreehandPolygon_zoom_clamped testProj (fun p => ⟨p.lng, p.lat⟩) ⟨100, 100⟩ 5
     [⟨0, 0⟩, ⟨1, 2⟩, ⟨2, 0⟩] (by norm_num)⟩

/-- Degrees to radians (`Math.PI / 180`). -/
noncomputable def degRad : ℝ := π / 180

/-- JavaScript `Math.atan2(y, x)`. -/
noncomputable def jsAtan2 (y x : ℝ) : ℝ :=
  if 0 < x then arctan (y / x)
  else if x < 0 then
    (if 0 ≤ y then arctan (y / x) + π else arctan (y / x) - π)
  else
    (if 0 < y then π / 2 else if y < 0 then -(π / 2) else 0)

/-- Global `calculateDistance`: haversine distance with Earth radius
6,371,000 m (array-input branch of the source). -/
noncomputable def calculateDistance (p1 p2 : LatLng) : ℝ :=
  let lat1 := p1.lat * degRad
  let lat2 := p2.lat * degRad
  let dLat := (p2.lat - p1.lat) * degRad
  let dLng := (p2.lng - p1.lng) * degRad
  let a := Real.sin (dLat / 2) * Real.sin (dLat / 2) +
    Real.cos lat1 * Real.cos lat2 * Real.sin (dLng / 2) * Real.sin (dLng / 2)
  6371000 * (2 * jsAtan2 (Real.sqrt a) (Real.sqrt (1 - a)))

/-- Shoelace cross term `pts[i].lng * pts[i+1].lat - pts[i+1].lng * pts[i].lat`,
shared by `_centroid` and `getPolygonCentroid` (identical loops in the source). -/
noncomputable def shoelaceCross (pts : List LatLng) (i : ℕ) : ℝ :=
  (getI pts i).lng * (getI pts (i + 1)).lat - (getI pts (i + 1)).lng * (getI pts i).lat

/-- Accumulated signed shoelace area (`area2`), over index pairs `0..length-2`. -/
noncomputable def shoelaceArea2 (pts : List LatLng) : ℝ :=
  ∑ i ∈ Finset.range (pts.length - 1), shoelaceCross pts i

/-- Accumulated `cx` of the shoelace centroid. -/
noncomputable def shoelaceCx (pts : List LatLng) : ℝ :=
  ∑ i ∈ Finset.range (pts.length - 1),
    ((getI pts i).lng + (getI pts (i + 1)).lng) * shoelaceCross pts i

/-- Accumulated `cy` of the shoelace centroid. -/
noncomputable def shoelaceCy (pts : List LatLng) : ℝ :=
  ∑ i ∈ Finset.range (pts.length - 1),
    ((getI pts i).lat + (getI pts (i + 1)).lat) * shoelaceCross pts i

/-- `getPolygonCentroid`: planar shoelace centroid on lng/lat, `null` when the
input has fewer than 3 points or the signed area is numerically degenerate.
The source's `isFinite(area2)` test is vacuous in the real-number model,
where every value is finite. -/
noncomputable def getPolygonCentroid (pts : List LatLng) : Option LatLng :=
  if pts.length < 3 then none
  else if |shoelaceArea2 pts| < 1e-12 then none
  else some ⟨shoelaceCy pts / (shoelaceArea2 pts * 3), shoelaceCx pts / (shoelaceArea2 pts * 3)⟩

namespace SearchGuard

/-- Private `_dist` of the `_searchGuard` closure: haversine distance. -/
noncomputable def dist (p1 p2 : LatLng) : ℝ :=
  let lat1 := p1.lat * degRad
  let lat2 := p2.lat * degRad
  let dLat := (p2.lat - p1.lat) * degRad
  let dLng := (p2.lng - p1.lng) * degRad
  let a := Real.sin (dLat / 2) ^ 2 + Real.cos lat1 * Real.cos lat2 * Real.sin (dLng / 2) ^ 2
  6371000 * (2 * jsAtan2 (Real.sqrt a) (Real.sqrt (1 - a)))

/-- Private `_area`: spherical-excess polygon area in square meters, an
absolute value; 0 for fewer than 3 points.  The source loop wraps with
`j = (i + 1) % n`. -/
noncomputable def area (pts : List LatLng) : ℝ :=
  if pts.length < 3 then 0
  else
    |(∑ i ∈ Finset.range pts.length,
        ((getI pts ((i + 1) % pts.length)).lng - (getI pts i).lng) * degRad *
          (2 + Real.sin ((getI pts i).lat * degRad) +
            Real.sin ((getI pts ((i + 1) % pts.length)).lat * degRad))) *
      6371000 * 6371000 / 2|

/-- Private `_centroid`: same shoelace loop as `getPolygonCentroid` but with
no length guard. -/
noncomputable def centroid (pts : List LatLng) : Option LatLng :=
  if |shoelaceArea2 pts| < 1e-12 then none
  else some ⟨shoelaceCy pts / (shoelaceArea2 pts * 3), shoelaceCx pts / (shoelaceArea2 pts * 3)⟩

/-- Maximum `_dist` from the guard centroid to any vertex (`maxR` loop). -/
noncomputable def maxDistTo (c : LatLng) (pts : List LatLng) : ℝ :=
  pts.foldl (fun mr p => max mr (dist c p)) 0

/-- `validateSearchArea`: `none` means `{ ok: true }`, `some reason` the
rejection (the source appends formatted numbers to the reason strings;
the prefix is kept). -/
noncomputable def validateSearchArea (pts : List LatLng) : Option String :=
  if pts.length < 3 then some "Invalid polygon"
  else if 25000000 < area pts then some "Search area too large"
  else
    match centroid pts with
    | some c =>
        if 5000 < maxDistTo c pts * 1.1 then some "Search radius too large" else none
    | none => none

/-- `validateCircleRadius`: the `typeof` test is vacuously true in the model. -/
noncomputable def validateCircleRadius (radius : ℝ) : Bool :=
  decide (radius ≤ 5000)

end SearchGuard

/-- Bounding circle `{center, radius}` for Google `locationRestriction`. -/
structure BoundingCircle where
  center : LatLng
  radius : ℝ

/-- Maximum haversine `calculateDistance` from the centroid to any vertex
(the `maxRadius` loop of `polygonToBoundingCircle`). -/
noncomputable def maxCentroidDist (c : LatLng) (pts : List LatLng) : ℝ :=
  pts.foldl (fun mr p => max mr (calculateDistance c p)) 0

/-- `polygonToBoundingCircle`: centroid plus padded, capped max radius. -/
noncomputable def polygonToBoundingCircle (pts : List LatLng) : Option BoundingCircle :=
  match getPolygonCentroid pts with
  | none => none
  | some c => some ⟨c, min (maxCentroidDist c pts * 1.1) 50000⟩

/-- A normalized place record; `coordinates` may be absent. -/
structure Place where
  place_id : String
  coordinates : Option LatLng

/-- `pointInPolygon`: even-odd ray casting over the ring, with the source's
pairing `(i, j)` where `j` runs one behind `i` cyclically. -/
noncomputable def pointInPolygon (point : LatLng) (pts : List LatLng) : Bool :=
  (List.range pts.length).foldl
    (fun inside i =>
      let vi := getI pts i
      let vj := getI pts ((i + pts.length - 1) % pts.length)
      if (decide (point.lat < vi.lat) != decide (point.lat < vj.lat)) &&
          decide (point.lng <
            (vj.lng - vi.lng) * (point.lat - vi.lat) / (vj.lat - vi.lat) + vi.lng) then
        !inside
      else inside)
    false

/-- `pointToLineDistance`: planar point-to-segment distance on lng/lat with
longitude compression by `cos(avgLat)`, scaled by 111,000 m/degree.  When the
segment is a point (`lenSq == 0`), `param` stays `-1` and the start endpoint
is used. -/
noncomputable def pointToLineDistance (point lineStart lineEnd : LatLng) : ℝ :=
  let x := point.lng
  let y := point.lat
  let x1 := lineStart.lng
  let y1 := lineStart.lat
  let x2 := lineEnd.lng
  let y2 := lineEnd.lat
  let A := x - x1
  let B := y - y1
  let C := x2 - x1
  let D := y2 - y1
  let dot := A * C + B * D
  let lenSq := C * C + D * D
  let param := if lenSq ≠ 0 then dot / lenSq else -1
  let xx := if param < 0 then x1 else if 1 < param then x2 else x1 + param * C
  let yy := if param < 0 then y1 else if 1 < param then y2 else y1 + param * D
  let dLng := x - xx
  let dLat := y - yy
  let avgLat := (y + yy) / 2
  let cosLat := Real.cos (avgLat * π / 180)
  Real.sqrt ((dLng * cosLat) * (dLng * cosLat) + dLat * dLat) * 111000

/-- `getDistanceToPolygonEdge`: minimum segment distance over consecutive
vertex pairs, starting from `Infinity` (modelled as `⊤` in `WithTop ℝ`). -/
noncomputable def getDistanceToPolygonEdge (point : LatLng) (pts : List LatLng) : WithTop ℝ :=
  (List.range (pts.length - 1)).foldl
    (fun md i =>
      min md ((pointToLineDistance point (getI pts i) (getI pts (i + 1)) : ℝ) : WithTop ℝ))
    ⊤

/-- The polygon post-filter applied by `searchPlacesWithGoogle` to the
deduplicated results: keep a place when it has coordinates and is inside the
ring or within 10 m of its edge. -/
noncomputable def googlePostFilter (pts : List LatLng) (places : List Place) : List Place :=
  places.filter fun place =>
    match place.coordinates with
    | none => false
    | some c => pointInPolygon c pts || decide (getDistanceToPolygonEdge c pts ≤ (10 : WithTop ℝ))

/-- Combine-and-deduplicate by Google place id (`placeMap`): first occurrence
of each truthy id wins. -/
def dedupByPlaceId : List Place → List String → List Place
  | [], _ => []
  | p :: rest, seen =>
    if p.place_id ≠ "" ∧ p.place_id ∉ seen then
      p :: dedupByPlaceId rest (p.place_id :: seen)
    else dedupByPlaceId rest seen

/-- `fetchNearbyPlaces` up to its network boundary: the circle radius is
re-validated first, then the daily quota (`canCall`); only then is the API
(`api`, abstracting the proxy fetch) consulted. -/
noncomputable def fetchNearbyPlaces (canCall : Bool) (api : BoundingCircle → List Place)
    (circle : BoundingCircle) : List Place :=
  if !SearchGuard.validateCircleRadius circle.radius then []
  else if !canCall then []
  else api circle

/-- `searchPlacesWithGoogle`: guard validation, bounding circle, one
`fetchNearbyPlaces` batch per type group (at most the guard's cap of 4),
deduplication and polygon post-filtering.  Thrown `Error`s are modelled as
`Except.error`. -/
noncomputable def searchPlacesWithGoogle (canCall : Bool) (api : ℕ → BoundingCircle → List Place)
    (numTypeGroups : ℕ) (pts : List LatLng) : Except String (List Place) :=
  match SearchGuard.validateSearchArea pts with
  | some reason => .error ("Search blocked: " ++ reason)
  | none =>
    match polygonToBoundingCircle pts with
    | none => .error "Could not compute search area from polygon"
    | some circ =>
      let batches := (List.range (min numTypeGroups 4)).map fun i =>
        fetchNearbyPlaces canCall (api i) circ
      .ok (googlePostFilter pts (dedupByPlaceId batches.flatten []))

/-- A `min`-fold is bounded by every entry. -/
theorem foldl_min_le_elem {α β : Type} [LinearOrder β] (f : α → β) :
    ∀ (t : List α) (a : β) (x : α), x ∈ t →
      t.foldl (fun b p => min b (f p)) a ≤ f x := by
  intro t
  induction t with
  | nil => intro a x hx; cases hx
  | cons p t ih =>
    intro a x hx
    rcases List.mem_cons.mp hx with rfl | hx
    · exact le_trans (foldl_min_le_init f t (min a (f x))) (min_le_right _ _)
    · exact ih (min a (f p)) x hx

/-- C9: `getPolygonCentroid` returns `null` exactly when the input has fewer
than 3 points or the accumulated signed shoelace area over index pairs
`0..length-2` is numerically degenerate (absolute value below `1e-12`; the
non-finite case of the source cannot arise over the reals), and otherwise
returns the planar shoelace centroid. -/
theorem getPolygonCentroid_spec (pts : List LatLng) :
    getPolygonCentroid pts =
      if pts.length < 3 ∨ |shoelaceArea2 pts| < 1e-12 then none
      else some ⟨shoelaceCy pts / (shoelaceArea2 pts * 3),
        shoelaceCx pts / (shoelaceArea2 pts * 3)⟩ := by
  unfold getPolygonCentroid
  by_cases h1 : pts.length < 3
  · rw [if_pos h1, if_pos (Or.inl h1)]
  · rw [if_neg h1]
    by_cases h2 : |shoelaceArea2 pts| < 1e-12
    · rw [if_pos h2, if_pos (Or.inr h2)]
    · rw [if_neg h2, if_neg (by push_neg; exact ⟨not_lt.mp h1, not_lt.mp h2⟩)]

/-- C10: `pointToLineDistance` is total; for a degenerate segment
(`lenSq == 0`) the projection division is skipped and the result is the
longitude-compressed distance to the start endpoint, and
`getDistanceToPolygonEdge` is `Infinity` exactly for rings with fewer than
2 points. -/
theorem pointToLineDistance_total (point s e : LatLng) :
    ((e.lng - s.lng) * (e.lng - s.lng) + (e.lat - s.lat) * (e.lat - s.lat) = 0 →
      pointToLineDistance point s e =
        Real.sqrt
          (((point.lng - s.lng) * Real.cos ((point.lat + s.lat) / 2 * π / 180)) *
             ((point.lng - s.lng) * Real.cos ((point.lat + s.lat) / 2 * π / 180)) +
           (point.lat - s.lat) * (point.lat - s.lat)) * 111000) ∧
    (∀ pts : List LatLng, getDistanceToPolygonEdge point pts = ⊤ ↔ pts.length < 2) := by
  constructor
  · intro hlen
    simp only [pointToLineDistance]
    rw [if_neg (not_ne_iff.mpr hlen)]
    norm_num
  · intro pts
    constructor
    · intro htop
      by_contra hlen
      push_neg at hlen
      have h0 : 0 ∈ List.range (pts.length - 1) := by
        rw [List.mem_range]
        omega
      have hle := foldl_min_le_elem
        (fun i => ((pointToLineDistance point (getI pts i) (getI pts (i + 1)) : ℝ) : WithTop ℝ))
        (List.range (pts.length - 1)) ⊤ 0 h0
      rw [← getDistanceToPolygonEdge] at hle
      rw [htop] at hle
      exact absurd hle (by simp)
    · intro hlen
      unfold getDistanceToPolygonEdge
      have : pts.length - 1 = 0 := by omega
      rw [this]
      rfl

/-- C10 witness: a coincident segment and an empty ring. -/
theorem pointToLineDistance_total_witness :
    (((4 : ℝ) - 4) * ((4 : ℝ) - 4) + ((3 : ℝ) - 3) * ((3 : ℝ) - 3) = 0 ∧
      pointToLineDistance ⟨1, 2⟩ ⟨3, 4⟩ ⟨3, 4⟩ =
        Real.sqrt
          ((((2 : ℝ) - 4) * Real.cos (((1 : ℝ) + 3) / 2 * π / 180)) *
             (((2 : ℝ) - 4) * Real.cos (((1 : ℝ) + 3) / 2 * π / 180)) +
           ((1 : ℝ) - 3) * ((1 : ℝ) - 3)) * 111000) ∧
    (getDistanceToPolygonEdge ⟨1, 2⟩ [] = ⊤ ↔ ([] : List LatLng).length < 2) :=
  ⟨⟨by norm_num, (pointToLineDistance_total ⟨1, 2⟩ ⟨3, 4⟩ ⟨3, 4⟩).1 (by norm_num)⟩,
   (pointToLineDistance_total ⟨1, 2⟩ ⟨3, 4⟩ ⟨3, 4⟩).2 []⟩

/-- C5: the polygon post-filter of `searchPlacesWithGoogle` keeps a place
with coordinates exactly when ray casting reports it inside the ring or its
distance to the ring edge is within the 10 m tolerance. -/
theorem googlePostFilter_mem (pts : List LatLng) (places : List Place)
    (place : Place) (c : LatLng) (hc : place.coordinates = some c) :
    place ∈ googlePostFilter pts places ↔
      place ∈ places ∧
        (pointInPolygon c pts = true ∨
          getDistanceToPolygonEdge c pts ≤ (10 : WithTop ℝ)) := by
  unfold googlePostFilter
  rw [List.mem_filter, hc]
  simp [Bool.or_eq_true, decide_eq_true_iff]

/-- C5 witness at a concrete place and ring. -/
theorem googlePostFilter_mem_witness :
    (Place.mk "pid" (some ⟨0, 0⟩)).coordinates = some ⟨0, 0⟩ ∧
    ((Place.mk "pid" (some ⟨0, 0⟩)) ∈
        googlePostFilter [] [Place.mk "pid" (some ⟨0, 0⟩)] ↔
      (Place.mk "pid" (some ⟨0, 0⟩)) ∈ [Place.mk "pid" (some ⟨0, 0⟩)] ∧
        (pointInPolygon ⟨0, 0⟩ [] = true ∨
          getDistanceToPolygonEdge ⟨0, 0⟩ [] ≤ (10 : WithTop ℝ))) :=
  ⟨rfl, googlePostFilter_mem [] [Place.mk "pid" (some ⟨0, 0⟩)]
    (Place.mk "pid" (some ⟨0, 0⟩)) ⟨0, 0⟩ rfl⟩

/-- C7: `searchPlacesWithGoogle` fails before any network activity (its
result is an error and does not depend on the API) whenever the polygon has
fewer than 3 points, its spherical-excess area exceeds 25,000,000 m², or 1.1
times the maximum centroid-to-vertex haversine distance exceeds 5,000 m;
independently `fetchNearbyPlaces` returns `[]` without consulting the API
whenever the circle radius exceeds 5,000 m, although
`polygonToBoundingCircle` itself caps the radius only at 50,000 m. -/
theorem searchGuard_limits :
    (∀ (canCall : Bool) (api : ℕ → BoundingCircle → List Place) (n : ℕ)
        (pts : List LatLng),
      (pts.length < 3 ∨ 25000000 < SearchGuard.area pts ∨
          (∃ c, SearchGuard.centroid pts = some c ∧
            5000 < SearchGuard.maxDistTo c pts * 1.1)) →
      (searchPlacesWithGoogle canCall api n pts).isOk = false ∧
        ∀ api2 : ℕ → BoundingCircle → List Place,
          searchPlacesWithGoogle canCall api2 n pts =
            searchPlacesWithGoogle canCall api n pts) ∧
    (∀ (canCall : Bool) (api : BoundingCircle → List Place) (circ : BoundingCircle),
      5000 < circ.radius → fetchNearbyPlaces canCall api circ = []) ∧
    (∀ (pts : List LatLng) (circ : BoundingCircle),
      polygonToBoundingCircle pts = some circ → circ.radius ≤ 50000) := by
  refine ⟨?_, ?_, ?_⟩
  · intro canCall api n pts hbad
    have hguard : ∃ r, SearchGuard.validateSearchArea pts = some r := by
      unfold SearchGuard.validateSearchArea
      by_cases h1 : pts.length < 3
      · exact ⟨_, if_pos h1⟩
      · rw [if_neg h1]
        by_cases h2 : 25000000 < SearchGuard.area pts
        · exact ⟨_, if_pos h2⟩
        · rw [if_neg h2]
          rcases hbad with hbad | hbad | hbad
          · exact absurd hbad h1
          · exact absurd hbad h2
          · obtain ⟨c, hc, hr⟩ := hbad
            rw [hc]
            exact ⟨"Search radius too large", by simp [hr]⟩
    obtain ⟨r, hr⟩ := hguard
    constructor
    · unfold searchPlacesWithGoogle
      rw [hr]
      rfl
    · intro api2
      unfold searchPlacesWithGoogle
      rw [hr]
  · intro canCall api circ hrad
    unfold fetchNearbyPlaces SearchGuard.validateCircleRadius
    rw [decide_eq_false (not_le.mpr hrad)]
    rfl
  · intro pts circ hcirc
    unfold polygonToBoundingCircle at hcirc
    rcases h : getPolygonCentroid pts with _ | c
    · rw [h] at hcirc
      exact absurd hcirc (by simp)
    · rw [h] at hcirc
      simp only [Option.some.injEq] at hcirc
      rw [← hcirc]
      exact min_le_right _ _

/-- A small concrete test triangle, explicitly closed. -/
noncomputable def testTri : List LatLng := [⟨0, 0⟩, ⟨1 / 1000, 0⟩, ⟨0, 1 / 1000⟩, ⟨0, 0⟩]

/-- The test triangle's shoelace centroid evaluates exactly. -/
theorem testTri_centroid : getPolygonCentroid testTri = some ⟨1 / 3000, 1 / 3000⟩ := by
  unfold getPolygonCentroid testTri
  have ha : shoelaceArea2 [⟨0, 0⟩, ⟨1 / 1000, 0⟩, ⟨0, 1 / 1000⟩, ⟨0, 0⟩] = -(1 / 1000000) := by
    simp [shoelaceArea2, shoelaceCross, getI, Finset.sum_range_succ]
    norm_num
  have hy : shoelaceCy [⟨0, 0⟩, ⟨1 / 1000, 0⟩, ⟨0, 1 / 1000⟩, ⟨0, 0⟩] = -(1 / 1000000000) := by
    simp [shoelaceCy, shoelaceCross, getI, Finset.sum_range_succ]
    norm_num
  have hx : shoelaceCx [⟨0, 0⟩, ⟨1 / 1000, 0⟩, ⟨0, 1 / 1000⟩, ⟨0, 0⟩] = -(1 / 1000000000) := by
    simp [shoelaceCx, shoelaceCross, getI, Finset.sum_range_succ]
    norm_num
  rw [if_neg (by norm_num), ha, hy, hx, if_neg (by rw [abs_of_nonpos (by norm_num)]; norm_num)]
  norm_num

/-- C7 witness: an empty polygon is blocked independently of the API, an
oversized circle yields no places, and a concrete bounding circle respects
the 50 km cap. -/
theorem searchGuard_limits_witness :
    ((([] : List LatLng).length < 3 ∨ 25000000 < SearchGuard.area [] ∨
        (∃ c, SearchGuard.centroid [] = some c ∧
          5000 < SearchGuard.maxDistTo c [] * 1.1)) ∧
      ((searchPlacesWithGoogle true (fun _ _ => []) 0 []).isOk = false ∧
        ∀ api2 : ℕ → BoundingCircle → List Place,
          searchPlacesWithGoogle true api2 0 [] =
            searchPlacesWithGoogle true (fun _ _ => []) 0 [])) ∧
    ((5000 : ℝ) < 6000 ∧
      fetchNearbyPlaces true (fun _ => []) ⟨⟨0, 0⟩, 6000⟩ = []) ∧
    (polygonToBoundingCircle testTri =
        some ⟨⟨1 / 3000, 1 / 3000⟩,
          min (maxCentroidDist ⟨1 / 3000, 1 / 3000⟩ testTri * 1.1) 50000⟩ ∧
      (min (maxCentroidDist ⟨1 / 3000, 1 / 3000⟩ testTri * 1.1) (50000 : ℝ)) ≤ 50000) := by
  have hpc : polygonToBoundingCircle testTri =
      some ⟨⟨1 / 3000, 1 / 3000⟩,
        min (maxCentroidDist ⟨1 / 3000, 1 / 3000⟩ testTri * 1.1) 50000⟩ := by
    unfold polygonToBoundingCircle
    rw [testTri_centroid]
  refine ⟨⟨Or.inl (by norm_num), ?_⟩, ⟨by norm_num, ?_⟩, hpc, ?_⟩
  · exact (searchGuard_limits.1 true (fun _ _ => []) 0 [] (Or.inl (by norm_num)))
  · exact searchGuard_limits.2.1 true (fun _ => []) ⟨⟨0, 0⟩, 6000⟩ (by norm_num)
  · exact searchGuard_limits.2.2 testTri _ hpc

/-- One summand of the `_area` loop, as a function of the edge endpoints. -/
noncomputable def pairTerm (a b : LatLng) : ℝ :=
  (b.lng - a.lng) * degRad * (2 + Real.sin (a.lat * degRad) + Real.sin (b.lat * degRad))

/-- The cyclic `_area` accumulator before scaling and absolute value. -/
noncomputable def cyclicSum (pts : List LatLng) : ℝ :=
  ∑ i ∈ Finset.range pts.length, pairTerm (getI pts i) (getI pts ((i + 1) % pts.length))

/-- Swapping an edge negates its area summand. -/
theorem pairTerm_antisymm (a b : LatLng) : pairTerm b a = -pairTerm a b := by
  unfold pairTerm
  ring

/-- For 3 or more points, `_area` is the scaled absolute cyclic sum. -/
theorem area_eq_cyclicSum (pts : List LatLng) (h : ¬pts.length < 3) :
    SearchGuard.area pts = |cyclicSum pts * 6371000 * 6371000 / 2| := by
  unfold SearchGuard.area cyclicSum pairTerm
  rw [if_neg h]

/-- Indexing a rotated list reads the original cyclically shifted. -/
theorem getI_rotate (pts : List LatLng) (k v : ℕ) (hv : v < pts.length) :
    getI (pts.rotate k) v = getI pts ((v + k) % pts.length) := by
  unfold getI
  have h1 : v < (pts.rotate k).length := by rw [List.length_rotate]; exact hv
  have h2 : (v + k) % pts.length < pts.length := Nat.mod_lt _ (by omega)
  rw [List.getD_eq_getElem _ _ h1, List.getD_eq_getElem _ _ h2]
  exact List.getElem_rotate pts k v h1

/-- Indexing a reversed list reads the original from the other end. -/
theorem getI_reverse (pts : List LatLng) (v : ℕ) (hv : v < pts.length) :
    getI pts.reverse v = getI pts (pts.length - 1 - v) := by
  unfold getI
  have h1 : v < pts.reverse.length := by rw [List.length_reverse]; exact hv
  have h2 : pts.length - 1 - v < pts.length := by omega
  rw [List.getD_eq_getElem _ _ h1, List.getD_eq_getElem _ _ h2]
  exact List.getElem_reverse h1

/-- A sum over `range n` is invariant under a cyclic index shift. -/
theorem sum_range_shift (n : ℕ) (hn : n ≠ 0) (F : ℕ → ℝ) (k : ℕ) :
    ∑ i ∈ Finset.range n, F ((i + k) % n) = ∑ i ∈ Finset.range n, F i := by
  haveI : NeZero n := ⟨hn⟩
  rw [← Fin.sum_univ_eq_sum_range (fun i => F ((i + k) % n)),
    ← Fin.sum_univ_eq_sum_range (fun i => F i)]
  apply Fintype.sum_equiv (Equiv.addRight (k : Fin n))
  intro i
  have hv : ((Equiv.addRight (k : Fin n)) i).val = (i.val + k) % n := by
    show ((i + (k : Fin n)).val) = (i.val + k) % n
    rw [Fin.val_add, Fin.val_natCast, Nat.add_mod_mod]
  simp only [hv]

/-- The cyclic area accumulator is invariant under list rotation. -/
theorem cyclicSum_rotate (pts : List LatLng) (k : ℕ) (hn : pts.length ≠ 0) :
    cyclicSum (pts.rotate k) = cyclicSum pts := by
  unfold cyclicSum
  rw [List.length_rotate]
  have step1 : ∀ i ∈ Finset.range pts.length,
      pairTerm (getI (pts.rotate k) i) (getI (pts.rotate k) ((i + 1) % pts.length)) =
        (fun v => pairTerm (getI pts v) (getI pts ((v + 1) % pts.length)))
          ((i + k) % pts.length) := by
    intro i hi
    rw [Finset.mem_range] at hi
    simp only
    rw [getI_rotate pts k i hi,
      getI_rotate pts k ((i + 1) % pts.length) (Nat.mod_lt _ (by omega)),
      Nat.mod_add_mod, Nat.mod_add_mod, show i + 1 + k = i + k + 1 by omega]
  rw [Finset.sum_congr rfl step1,
    sum_range_shift pts.length hn (fun v => pairTerm (getI pts v) (getI pts ((v + 1) % pts.length))) k]

/-- The cyclic area accumulator is negated by list reversal. -/
theorem cyclicSum_reverse (pts : List LatLng) :
    cyclicSum pts.reverse = -cyclicSum pts := by
  unfold cyclicSum
  rw [List.length_reverse]
  have hmod : ∀ a : ℕ, a < pts.length → (a + 1) % pts.length =
      if a + 1 = pts.length then 0 else a + 1 := by
    intro a ha
    by_cases h2 : a + 1 = pts.length
    · rw [if_pos h2, h2, Nat.mod_self]
    · rw [if_neg h2, Nat.mod_eq_of_lt (by omega)]
  have step1 : ∀ i ∈ Finset.range pts.length,
      pairTerm (getI pts.reverse i) (getI pts.reverse ((i + 1) % pts.length)) =
        pairTerm (getI pts (pts.length - 1 - i))
          (getI pts (pts.length - 1 - (i + 1) % pts.length)) := by
    intro i hi
    rw [Finset.mem_range] at hi
    rw [getI_reverse pts i hi,
      getI_reverse pts ((i + 1) % pts.length) (Nat.mod_lt _ (by omega))]
  rw [Finset.sum_congr rfl step1]
  have key : ∑ i ∈ Finset.range pts.length,
      pairTerm (getI pts (pts.length - 1 - i))
        (getI pts (pts.length - 1 - (i + 1) % pts.length)) =
      ∑ j ∈ Finset.range pts.length,
        -pairTerm (getI pts j) (getI pts ((j + 1) % pts.length)) := by
    apply Finset.sum_nbij' (fun i => pts.length - 1 - (i + 1) % pts.length)
      (fun j => pts.length - 1 - (j + 1) % pts.length)
    · intro a ha
      rw [Finset.mem_range] at ha ⊢
      omega
    · intro a ha
      rw [Finset.mem_range] at ha ⊢
      omega
    · intro a ha
      rw [Finset.mem_range] at ha
      rw [hmod a ha]
      by_cases h2 : a + 1 = pts.length
      · rw [if_pos h2]
        rw [hmod (pts.length - 1 - 0) (by omega)]
        rw [if_pos (by omega)]
        omega
      · rw [if_neg h2]
        rw [hmod (pts.length - 1 - (a + 1)) (by omega)]
        rw [if_neg (by omega)]
        omega
    · intro a ha
      rw [Finset.mem_range] at ha
      rw [hmod a ha]
      by_cases h2 : a + 1 = pts.length
      · rw [if_pos h2]
        rw [hmod (pts.length - 1 - 0) (by omega)]
        rw [if_pos (by omega)]
        omega
      · rw [if_neg h2]
        rw [hmod (pts.length - 1 - (a + 1)) (by omega)]
        rw [if_neg (by omega)]
        omega
    · intro a ha
      rw [Finset.mem_range] at ha
      have hidx : pts.length - 1 - a =
          ((pts.length - 1 - (a + 1) % pts.length) + 1) % pts.length := by
        rw [hmod a ha]
        by_cases h2 : a + 1 = pts.length
        · rw [if_pos h2]
          rw [hmod (pts.length - 1 - 0) (by omega), if_pos (by omega)]
          omega
        · rw [if_neg h2]
          rw [hmod (pts.length - 1 - (a + 1)) (by omega), if_neg (by omega)]
          omega
      rw [hidx, pairTerm_antisymm]
  rw [key, ← Finset.sum_neg_distrib]

/-- C8: the spherical-excess area returns 0 for fewer than 3 points, is
always nonnegative (an absolute value), is unchanged by reversing the vertex
order, and is unchanged by any rotation of the vertex list (hence in
particular for convex polygons). -/
theorem area_invariant :
    (∀ pts : List LatLng, pts.length < 3 → SearchGuard.area pts = 0) ∧
    (∀ pts : List LatLng, 0 ≤ SearchGuard.area pts) ∧
    (∀ pts : List LatLng, SearchGuard.area pts.reverse = SearchGuard.area pts) ∧
    (∀ (pts : List LatLng) (k : ℕ), SearchGuard.area (pts.rotate k) = SearchGuard.area pts) := by
  have hzero : ∀ pts : List LatLng, pts.length < 3 → SearchGuard.area pts = 0 := by
    intro pts h
    unfold SearchGuard.area
    rw [if_pos h]
  refine ⟨hzero, ?_, ?_, ?_⟩
  · intro pts
    unfold SearchGuard.area
    by_cases h : pts.length < 3
    · rw [if_pos h]
    · rw [if_neg h]
      exact abs_nonneg _
  · intro pts
    by_cases h : pts.length < 3
    · rw [hzero pts h, hzero pts.reverse (by rw [List.length_reverse]; exact h)]
    · have h2 : ¬pts.reverse.length < 3 := by rw [List.length_reverse]; exact h
      rw [area_eq_cyclicSum _ h2, area_eq_cyclicSum _ h, cyclicSum_reverse pts,
        show -cyclicSum pts * 6371000 * 6371000 / 2 =
          -(cyclicSum pts * 6371000 * 6371000 / 2) by ring, abs_neg]
  · intro pts k
    by_cases h : pts.length < 3
    · rw [hzero _ (by rw [List.length_rotate]; exact h), hzero _ h]
    · have h2 : ¬(pts.rotate k).length < 3 := by rw [List.length_rotate]; exact h
      rw [area_eq_cyclicSum _ h2, area_eq_cyclicSum _ h,
        cyclicSum_rotate pts k (by omega)]

/-- C8 witness: the short-ring case at a concrete list, and the reversal and
rotation invariances at a concrete triangle. -/
theorem area_invariant_witness :
    (([] : List LatLng).length < 3 ∧ SearchGuard.area [] = 0) ∧
    SearchGuard.area ([⟨0, 0⟩, ⟨1, 0⟩, ⟨0, 1⟩] : List LatLng).reverse =
      SearchGuard.area [⟨0, 0⟩, ⟨1, 0⟩, ⟨0, 1⟩] ∧
    SearchGuard.area (([⟨0, 0⟩, ⟨1, 0⟩, ⟨0, 1⟩] : List LatLng).rotate 1) =
      SearchGuard.area [⟨0, 0⟩, ⟨1, 0⟩, ⟨0, 1⟩] :=
  ⟨⟨by norm_num, area_invariant.1 [] (by norm_num)⟩,
   area_invariant.2.2.1 [⟨0, 0⟩, ⟨1, 0⟩, ⟨0, 1⟩],
   area_invariant.2.2.2 [⟨0, 0⟩, ⟨1, 0⟩, ⟨0, 1⟩] 1⟩

/-- Arctangent is below its argument on the nonnegative axis. -/
theorem arctan_le_self_nonneg (t : ℝ) (ht : 0 ≤ t) : Real.arctan t ≤ t := by
  rcases eq_or_lt_of_le ht with h | h
  · rw [← h, Real.arctan_zero]
  · have hpos : 0 < Real.arctan t := by
      have := Real.arctan_strictMono h
      rwa [Real.arctan_zero] at this
    have hlt : Real.arctan t < Real.tan (Real.arctan t) :=
      Real.lt_tan hpos (Real.arctan_lt_pi_div_two t)
    rw [Real.tan_arctan] at hlt
    exact le_of_lt hlt

/-- Arcsine dominates its argument on `[0, 1]`. -/
theorem self_le_arcsin (y : ℝ) (h0 : 0 ≤ y) (h1 : y ≤ 1) : y ≤ Real.arcsin y := by
  have hsin : Real.sin (Real.arcsin y) = y := Real.sin_arcsin (by linarith) h1
  have harc0 : 0 ≤ Real.arcsin y := Real.arcsin_nonneg.mpr h0
  rcases eq_or_lt_of_le harc0 with h | h
  · have hy0 : y = 0 := by rw [← hsin, ← h, Real.sin_zero]
    rw [hy0]
    exact Real.arcsin_nonneg.mpr le_rfl
  · have hs := Real.sin_lt h
    rw [hsin] at hs
    exact le_of_lt hs

/-- Arcsine is below `y / sqrt (1 - y^2)` on `[0, 1)`. -/
theorem arcsin_le_div_sqrt (y : ℝ) (h0 : 0 ≤ y) (h1 : y < 1) :
    Real.arcsin y ≤ y / Real.sqrt (1 - y ^ 2) := by
  rw [Real.arcsin_eq_arctan ⟨by linarith, h1⟩]
  exact arctan_le_self_nonneg _ (div_nonneg h0 (Real.sqrt_nonneg _))

/-- The sine magnitude never exceeds the argument magnitude. -/
theorem abs_sin_le_abs_self (x : ℝ) : |Real.sin x| ≤ |x| := by
  have key : ∀ y : ℝ, 0 ≤ y → |Real.sin y| ≤ |y| := by
    intro y hy
    rw [abs_of_nonneg hy]
    by_cases h1 : y ≤ 1
    · rw [abs_of_nonneg (Real.sin_nonneg_of_nonneg_of_le_pi hy
        (by linarith [Real.pi_gt_three]))]
      rcases eq_or_lt_of_le hy with h2 | h2
      · rw [← h2, Real.sin_zero]
      · exact le_of_lt (Real.sin_lt h2)
    · calc |Real.sin y| ≤ 1 := Real.abs_sin_le_one y
        _ ≤ y := by linarith [not_le.mp h1]
  rcases le_or_lt 0 x with h | h
  · exact key x h
  · have hx := key (-x) (by linarith)
    rwa [Real.sin_neg, abs_neg, abs_neg] at hx

/-- Squared sine is bounded by the squared argument. -/
theorem sin_mul_self_le (x : ℝ) : Real.sin x * Real.sin x ≤ x * x := by
  have h := abs_sin_le_abs_self x
  calc Real.sin x * Real.sin x = |Real.sin x| * |Real.sin x| :=
      (abs_mul_abs_self _).symm
    _ ≤ |x| * |x| := mul_le_mul h h (abs_nonneg _) (abs_nonneg _)
    _ = x * x := abs_mul_abs_self _

/-- The haversine kernel `a` of `calculateDistance`. -/
noncomputable def havA (p1 p2 : LatLng) : ℝ :=
  Real.sin ((p2.lat - p1.lat) * degRad / 2) * Real.sin ((p2.lat - p1.lat) * degRad / 2) +
    Real.cos (p1.lat * degRad) * Real.cos (p2.lat * degRad) *
      Real.sin ((p2.lng - p1.lng) * degRad / 2) * Real.sin ((p2.lng - p1.lng) * degRad / 2)

/-- For a kernel in `[0, 1)`, `Math.atan2(sqrt a, sqrt (1-a))` is `arcsin (sqrt a)`. -/
theorem jsAtan2_sqrt (a : ℝ) (h0 : 0 ≤ a) (h1 : a < 1) :
    jsAtan2 (Real.sqrt a) (Real.sqrt (1 - a)) = Real.arcsin (Real.sqrt a) := by
  have hx : 0 < Real.sqrt (1 - a) := Real.sqrt_pos.mpr (by linarith)
  unfold jsAtan2
  rw [if_pos hx]
  have hmem : Real.sqrt a ∈ Set.Ioo (-(1 : ℝ)) 1 := by
    constructor
    · linarith [Real.sqrt_nonneg a]
    · calc Real.sqrt a < Real.sqrt 1 := Real.sqrt_lt_sqrt h0 h1
        _ = 1 := Real.sqrt_one
  rw [Real.arcsin_eq_arctan hmem, Real.sq_sqrt h0]

/-- `calculateDistance` as an arcsine for kernels in `[0, 1)`. -/
theorem calculateDistance_eq_arcsin (p1 p2 : LatLng)
    (h0 : 0 ≤ havA p1 p2) (h1 : havA p1 p2 < 1) :
    calculateDistance p1 p2 = 6371000 * (2 * Real.arcsin (Real.sqrt (havA p1 p2))) := by
  have hd : calculateDistance p1 p2 =
      6371000 * (2 * jsAtan2 (Real.sqrt (havA p1 p2)) (Real.sqrt (1 - havA p1 p2))) := rfl
  rw [hd, jsAtan2_sqrt _ h0 h1]

/-- The kernel is bounded by the squared half-angles. -/
theorem havA_le_sq (p1 p2 : LatLng) :
    havA p1 p2 ≤ ((p2.lat - p1.lat) * degRad / 2) * ((p2.lat - p1.lat) * degRad / 2) +
      ((p2.lng - p1.lng) * degRad / 2) * ((p2.lng - p1.lng) * degRad / 2) := by
  unfold havA
  have h1 := sin_mul_self_le ((p2.lat - p1.lat) * degRad / 2)
  have h2 := sin_mul_self_le ((p2.lng - p1.lng) * degRad / 2)
  have hc1 := Real.cos_le_one (p1.lat * degRad)
  have hc2 := Real.cos_le_one (p2.lat * degRad)
  have hd1 := Real.neg_one_le_cos (p1.lat * degRad)
  have hd2 := Real.neg_one_le_cos (p2.lat * degRad)
  have hcc : Real.cos (p1.lat * degRad) * Real.cos (p2.lat * degRad) ≤ 1 := by
    nlinarith
  nlinarith [mul_self_nonneg (Real.sin ((p2.lng - p1.lng) * degRad / 2)),
    mul_self_nonneg (Real.sin ((p2.lat - p1.lat) * degRad / 2))]

/-- The degree-to-radian factor is below 0.01746. -/
theorem degRad_lt : degRad < 0.01746 := by
  unfold degRad
  have := Real.pi_lt_d4
  linarith

/-- The degree-to-radian factor exceeds 0.01745. -/
theorem degRad_gt : 0.01745 < degRad := by
  unfold degRad
  have := Real.pi_gt_d4
  linarith

/-- Cosine of a latitude within one degree is close to 1. -/
theorem cos_lat_big (v : ℝ) (hv : |v| ≤ 1) : (0.999 : ℝ) ≤ Real.cos (v * degRad) := by
  have hb : 1 - (v * degRad) ^ 2 / 2 ≤ Real.cos (v * degRad) :=
    Real.one_sub_sq_div_two_le_cos
  have habs : |v * degRad| ≤ 0.01746 := by
    rw [abs_mul, abs_of_pos (lt_trans (by norm_num) degRad_gt)]
    have hm : |v| * degRad ≤ 1 * degRad :=
      mul_le_mul_of_nonneg_right hv (le_of_lt (lt_trans (by norm_num) degRad_gt))
    nlinarith [degRad_lt]
  have hx2 : (v * degRad) ^ 2 ≤ 0.01746 ^ 2 := by
    rw [← sq_abs]
    exact pow_le_pow_left₀ (abs_nonneg _) habs 2
  norm_num at hx2
  linarith

/-- The kernel is nonnegative when both latitudes are within 1 degree. -/
theorem havA_nonneg_of_small (p1 p2 : LatLng)
    (hp : |p1.lat| ≤ 1) (hq : |p2.lat| ≤ 1) : 0 ≤ havA p1 p2 := by
  unfold havA
  have hc1 : (0.999 : ℝ) ≤ Real.cos (p1.lat * degRad) := cos_lat_big _ hp
  have hc2 : (0.999 : ℝ) ≤ Real.cos (p2.lat * degRad) := cos_lat_big _ hq
  have hpos : 0 < Real.cos (p1.lat * degRad) * Real.cos (p2.lat * degRad) := by nlinarith
  have hterm : 0 ≤ Real.cos (p1.lat * degRad) * Real.cos (p2.lat * degRad) *
      Real.sin ((p2.lng - p1.lng) * degRad / 2) *
      Real.sin ((p2.lng - p1.lng) * degRad / 2) := by
    nlinarith [mul_self_nonneg (Real.sin ((p2.lng - p1.lng) * degRad / 2))]
  nlinarith [mul_self_nonneg (Real.sin ((p2.lat - p1.lat) * degRad / 2))]

/-- Haversine distance of two points of a small lat/lng box is below 200 m. -/
theorem calculateDistance_le_of_box (p1 p2 : LatLng)
    (hp : |p1.lat| ≤ 1) (hq : |p2.lat| ≤ 1)
    (hdlat : |p2.lat - p1.lat| ≤ 11 / 10000) (hdlng : |p2.lng - p1.lng| ≤ 1 / 1000) :
    calculateDistance p1 p2 ≤ 200 := by
  have h0 : 0 ≤ havA p1 p2 := havA_nonneg_of_small p1 p2 hp hq
  have hdpos : (0 : ℝ) < degRad := lt_trans (by norm_num) degRad_gt
  have hu : |(p2.lat - p1.lat) * degRad / 2| ≤ 0.000009603 := by
    rw [abs_div, abs_mul, abs_of_pos hdpos]
    have hm := mul_le_mul hdlat (le_of_lt degRad_lt) (le_of_lt hdpos) (by norm_num)
    rw [show |(2 : ℝ)| = 2 by norm_num]
    linarith
  have hv : |(p2.lng - p1.lng) * degRad / 2| ≤ 0.00000873 := by
    rw [abs_div, abs_mul, abs_of_pos hdpos]
    have hm := mul_le_mul hdlng (le_of_lt degRad_lt) (le_of_lt hdpos) (by norm_num)
    rw [show |(2 : ℝ)| = 2 by norm_num]
    linarith
  have hbound : havA p1 p2 ≤ 1.7e-10 := by
    have hle := havA_le_sq p1 p2
    have hu2 : ((p2.lat - p1.lat) * degRad / 2) * ((p2.lat - p1.lat) * degRad / 2) ≤
        0.000009603 * 0.000009603 := by
      rw [← abs_mul_abs_self ((p2.lat - p1.lat) * degRad / 2)]
      exact mul_le_mul hu hu (abs_nonneg _) (by norm_num)
    have hv2 : ((p2.lng - p1.lng) * degRad / 2) * ((p2.lng - p1.lng) * degRad / 2) ≤
        0.00000873 * 0.00000873 := by
      rw [← abs_mul_abs_self ((p2.lng - p1.lng) * degRad / 2)]
      exact mul_le_mul hv hv (abs_nonneg _) (by norm_num)
    nlinarith
  have hlt1 : havA p1 p2 < 1 := by linarith
  have hsq : Real.sqrt (havA p1 p2) ≤ 0.0000131 := by
    calc Real.sqrt (havA p1 p2) ≤ Real.sqrt 1.7e-10 := Real.sqrt_le_sqrt hbound
      _ ≤ 0.0000131 := by
        rw [show (0.0000131 : ℝ) = Real.sqrt (0.0000131 ^ 2) from
          (Real.sqrt_sq (by norm_num)).symm]
        apply Real.sqrt_le_sqrt
        norm_num
  have hsqlt : Real.sqrt (havA p1 p2) < 1 := by
    calc Real.sqrt (havA p1 p2) < Real.sqrt 1 := Real.sqrt_lt_sqrt h0 hlt1
      _ = 1 := Real.sqrt_one
  have harc := arcsin_le_div_sqrt (Real.sqrt (havA p1 p2)) (Real.sqrt_nonneg _) hsqlt
  rw [Real.sq_sqrt h0] at harc
  have hden : (0.999 : ℝ) ≤ Real.sqrt (1 - havA p1 p2) := by
    apply (Real.le_sqrt (by norm_num) (by linarith)).mpr
    nlinarith
  have hdiv : Real.sqrt (havA p1 p2) / Real.sqrt (1 - havA p1 p2) ≤
      0.0000131 / 0.999 :=
    div_le_div₀ (by norm_num) hsq (by norm_num) hden
  rw [calculateDistance_eq_arcsin p1 p2 h0 hlt1]
  have hfin : Real.arcsin (Real.sqrt (havA p1 p2)) ≤ 0.0000131 / 0.999 :=
    le_trans harc hdiv
  nlinarith

/-- The haversine kernel between the bowtie centroid and the bowtie's fourth
vertex, with the structure projections evaluated. -/
theorem bowtie_havA_eq :
    havA ⟨2003 / 3000000, -(997 / 9000)⟩ ⟨1003 / 1000000, 0⟩ =
      Real.sin (503 / 1500000 * degRad / 2) * Real.sin (503 / 1500000 * degRad / 2) +
        Real.cos (2003 / 3000000 * degRad) * Real.cos (1003 / 1000000 * degRad) *
          Real.sin (997 / 9000 * degRad / 2) * Real.sin (997 / 9000 * degRad / 2) := by
  unfold havA
  norm_num

/-- Lower bound on the sine of the bowtie's longitude half-angle. -/
theorem bowtie_sin_lo : (0.0009665 : ℝ) ≤ Real.sin (997 / 9000 * degRad / 2) := by
  have hvlo : (0.00096653 : ℝ) ≤ 997 / 9000 * degRad / 2 := by nlinarith [degRad_gt]
  have hvhi : (997 : ℝ) / 9000 * degRad / 2 ≤ 0.0009671 := by nlinarith [degRad_lt]
  have hvpos : (0 : ℝ) < 997 / 9000 * degRad / 2 := by nlinarith [degRad_gt]
  have hvle1 : (997 : ℝ) / 9000 * degRad / 2 ≤ 1 := by nlinarith [degRad_lt]
  have hsin := Real.sin_gt_sub_cube hvpos hvle1
  have hx3 : ((997 : ℝ) / 9000 * degRad / 2) ^ 3 ≤ 0.0009671 ^ 3 :=
    pow_le_pow_left₀ (le_of_lt hvpos) hvhi 3
  nlinarith [hsin]

/-- The bowtie kernel is at least `0.000965 ^ 2`. -/
theorem bowtie_kernel_lo : (0.000965 : ℝ) ^ 2 ≤
    havA ⟨2003 / 3000000, -(997 / 9000)⟩ ⟨1003 / 1000000, 0⟩ := by
  rw [bowtie_havA_eq]
  have habs1 : |(2003 / 3000000 : ℝ)| ≤ 1 := abs_le.mpr ⟨by norm_num, by norm_num⟩
  have habs2 : |(1003 / 1000000 : ℝ)| ≤ 1 := abs_le.mpr ⟨by norm_num, by norm_num⟩
  have hc1 : (0.999 : ℝ) ≤ Real.cos ((2003 / 3000000 : ℝ) * degRad) := cos_lat_big _ habs1
  have hc2 : (0.999 : ℝ) ≤ Real.cos ((1003 / 1000000 : ℝ) * degRad) := cos_lat_big _ habs2
  have hcc : (0.998 : ℝ) ≤ Real.cos ((2003 / 3000000 : ℝ) * degRad) *
      Real.cos ((1003 / 1000000 : ℝ) * degRad) := by
    have h9 : (0.999 : ℝ) * 0.999 ≤ Real.cos ((2003 / 3000000 : ℝ) * degRad) *
        Real.cos ((1003 / 1000000 : ℝ) * degRad) :=
      mul_le_mul hc1 hc2 (by norm_num) (le_trans (by norm_num) hc1)
    linarith
  have hss : (0.0009665 : ℝ) * 0.0009665 ≤
      Real.sin (997 / 9000 * degRad / 2) * Real.sin (997 / 9000 * degRad / 2) :=
    mul_le_mul bowtie_sin_lo bowtie_sin_lo (by norm_num) (le_trans (by norm_num) bowtie_sin_lo)
  have hprod := mul_le_mul hcc hss (by positivity) (by linarith)
  have hassoc : Real.cos (2003 / 3000000 * degRad) * Real.cos (1003 / 1000000 * degRad) *
      Real.sin (997 / 9000 * degRad / 2) * Real.sin (997 / 9000 * degRad / 2) =
      (Real.cos (2003 / 3000000 * degRad) * Real.cos (1003 / 1000000 * degRad)) *
        (Real.sin (997 / 9000 * degRad / 2) * Real.sin (997 / 9000 * degRad / 2)) := by
    ring
  rw [hassoc]
  have hsq := mul_self_nonneg (Real.sin (503 / 1500000 * degRad / 2))
  nlinarith [hprod]

/-- The bowtie kernel is below 1. -/
theorem bowtie_kernel_lt1 :
    havA ⟨2003 / 3000000, -(997 / 9000)⟩ ⟨1003 / 1000000, 0⟩ < 1 := by
  rw [bowtie_havA_eq]
  have hdpos : (0 : ℝ) < degRad := lt_trans (by norm_num) degRad_gt
  have hd2 : degRad * degRad ≤ 0.01746 * 0.01746 :=
    mul_le_mul (le_of_lt degRad_lt) (le_of_lt degRad_lt) (le_of_lt hdpos) (by norm_num)
  have hu2 := sin_mul_self_le (503 / 1500000 * degRad / 2)
  have hv2 := sin_mul_self_le (997 / 9000 * degRad / 2)
  have hcos1 := Real.cos_le_one (2003 / 3000000 * degRad)
  have hcos2 := Real.cos_le_one (1003 / 1000000 * degRad)
  have hncos1 := Real.neg_one_le_cos (2003 / 3000000 * degRad)
  have hncos2 := Real.neg_one_le_cos (1003 / 1000000 * degRad)
  have hcc : Real.cos (2003 / 3000000 * degRad) * Real.cos (1003 / 1000000 * degRad) ≤ 1 := by
    nlinarith
  nlinarith [hd2, hdpos, mul_self_nonneg (Real.sin (997 / 9000 * degRad / 2)),
    mul_self_nonneg (Real.sin (503 / 1500000 * degRad / 2))]

/-- The bowtie centroid is far: more than 200 m from the bowtie vertex at
latitude 1003e-6, longitude 0. -/
theorem bowtie_far :
    200 < calculateDistance ⟨2003 / 3000000, -(997 / 9000)⟩ ⟨1003 / 1000000, 0⟩ := by
  have habs1 : |(2003 / 3000000 : ℝ)| ≤ 1 := abs_le.mpr ⟨by norm_num, by norm_num⟩
  have habs2 : |(1003 / 1000000 : ℝ)| ≤ 1 := abs_le.mpr ⟨by norm_num, by norm_num⟩
  have h0 : 0 ≤ havA ⟨2003 / 3000000, -(997 / 9000)⟩ ⟨1003 / 1000000, 0⟩ :=
    havA_nonneg_of_small _ _ habs1 habs2
  rw [calculateDistance_eq_arcsin _ _ h0 bowtie_kernel_lt1]
  have hs : (0.000965 : ℝ) ≤
      Real.sqrt (havA ⟨2003 / 3000000, -(997 / 9000)⟩ ⟨1003 / 1000000, 0⟩) :=
    (Real.le_sqrt (by norm_num) h0).mpr bowtie_kernel_lo
  have hsle1 : Real.sqrt (havA ⟨2003 / 3000000, -(997 / 9000)⟩ ⟨1003 / 1000000, 0⟩) ≤ 1 := by
    calc Real.sqrt (havA ⟨2003 / 3000000, -(997 / 9000)⟩ ⟨1003 / 1000000, 0⟩)
        ≤ Real.sqrt 1 := Real.sqrt_le_sqrt (le_of_lt bowtie_kernel_lt1)
      _ = 1 := Real.sqrt_one
  have harc : (0.000965 : ℝ) ≤ Real.arcsin
      (Real.sqrt (havA ⟨2003 / 3000000, -(997 / 9000)⟩ ⟨1003 / 1000000, 0⟩)) :=
    le_trans hs (self_le_arcsin _ (Real.sqrt_nonneg _) hsle1)
  nlinarith [harc]

/-- A closed, nearly self-cancelling bowtie ring: two opposing triangles of
almost equal area.  All vertices fit in a 1.1e-3-degree box, yet the signed
shoelace area is tiny (3e-9), so the shoelace centroid lies far outside. -/
noncomputable def bowtie : List LatLng :=
  [⟨0, 0⟩, ⟨1 / 1000, 1 / 1000⟩, ⟨0, 1 / 1000⟩, ⟨1003 / 1000000, 0⟩, ⟨0, 0⟩]

/-- The bowtie's shoelace centroid evaluates exactly, about 0.11 degrees of
longitude away from every vertex. -/
theorem bowtie_centroid :
    getPolygonCentroid bowtie = some ⟨2003 / 3000000, -(997 / 9000)⟩ := by
  unfold getPolygonCentroid bowtie
  have ha : shoelaceArea2
      [⟨0, 0⟩, ⟨1 / 1000, 1 / 1000⟩, ⟨0, 1 / 1000⟩, ⟨1003 / 1000000, 0⟩, ⟨0, 0⟩] =
      3 / 1000000000 := by
    norm_num [shoelaceArea2, shoelaceCross, getI, Finset.sum_range_succ]
  have hy : shoelaceCy
      [⟨0, 0⟩, ⟨1 / 1000, 1 / 1000⟩, ⟨0, 1 / 1000⟩, ⟨1003 / 1000000, 0⟩, ⟨0, 0⟩] =
      6009 / 1000000000000000 := by
    norm_num [shoelaceCy, shoelaceCross, getI, Finset.sum_range_succ]
  have hx : shoelaceCx
      [⟨0, 0⟩, ⟨1 / 1000, 1 / 1000⟩, ⟨0, 1 / 1000⟩, ⟨1003 / 1000000, 0⟩, ⟨0, 0⟩] =
      -(997 / 1000000000000) := by
    norm_num [shoelaceCx, shoelaceCross, getI, Finset.sum_range_succ]
  rw [if_neg (by norm_num), ha, hy, hx,
    if_neg (by rw [abs_of_nonneg (by norm_num)]; norm_num)]
  norm_num

/-- Every two bowtie vertices are within 200 m of each other. -/
theorem bowtie_pairwise :
    ∀ p ∈ bowtie, ∀ q ∈ bowtie, calculateDistance p q ≤ 200 := by
  intro p hp q hq
  fin_cases hp <;> fin_cases hq <;>
    (apply calculateDistance_le_of_box <;> (rw [abs_le]; constructor <;> norm_num))

/-- C6 counterexample: the bowtie's vertices all lie within 200 m of each
other and its centroid is non-degenerate, yet `polygonToBoundingCircle`
returns a radius far above 220 m, refuting the claimed consequence. -/
theorem boundingCircle_radius_counterexample :
    (∀ p ∈ bowtie, ∀ q ∈ bowtie, calculateDistance p q ≤ 200) ∧
    (getPolygonCentroid bowtie).isSome = true ∧
    220 < ((polygonToBoundingCircle bowtie).getD ⟨⟨0, 0⟩, 0⟩).radius := by
  refine ⟨bowtie_pairwise, ?_, ?_⟩
  · rw [bowtie_centroid]
    rfl
  · have hpc : polygonToBoundingCircle bowtie =
        some ⟨⟨2003 / 3000000, -(997 / 9000)⟩,
          min (maxCentroidDist ⟨2003 / 3000000, -(997 / 9000)⟩ bowtie * 1.1) 50000⟩ := by
      unfold polygonToBoundingCircle
      rw [bowtie_centroid]
    rw [hpc, Option.getD_some]
    apply lt_min
    · have hmem : (⟨1003 / 1000000, 0⟩ : LatLng) ∈ bowtie := by
        unfold bowtie
        simp
      have hle := le_foldl_max (calculateDistance ⟨2003 / 3000000, -(997 / 9000)⟩)
        bowtie 0 ⟨1003 / 1000000, 0⟩ hmem
      have hfar := bowtie_far
      unfold maxCentroidDist
      nlinarith
    · norm_num

/-- C6 (amended): for a ring with a non-degenerate centroid,
`polygonToBoundingCircle` pairs the shoelace centroid with
`min(1.1 × max centroid-to-vertex haversine distance, 50000)`; when every
vertex is within 200 m of the centroid the radius is at most 220 m. -/
theorem polygonToBoundingCircle_spec (pts : List LatLng) (c : LatLng)
    (hc : getPolygonCentroid pts = some c) :
    polygonToBoundingCircle pts = some ⟨c, min (maxCentroidDist c pts * 1.1) 50000⟩ ∧
    ((∀ p ∈ pts, calculateDistance c p ≤ 200) →
      min (maxCentroidDist c pts * 1.1) (50000 : ℝ) ≤ 220) := by
  constructor
  · unfold polygonToBoundingCircle
    rw [hc]
  · intro hall
    have hmax : maxCentroidDist c pts ≤ 200 :=
      foldl_max_le _ 200 pts 0 (by norm_num) hall
    have h1 : maxCentroidDist c pts * 1.1 ≤ 220 := by nlinarith
    exact le_trans (min_le_left _ _) h1

/-- C6 witness: the small test triangle has a non-degenerate centroid, every
vertex within 200 m of it, and so a bounding radius of at most 220 m. -/
theorem polygonToBoundingCircle_spec_witness :
    getPolygonCentroid testTri = some ⟨1 / 3000, 1 / 3000⟩ ∧
    (∀ p ∈ testTri, calculateDistance ⟨1 / 3000, 1 / 3000⟩ p ≤ 200) ∧
    (polygonToBoundingCircle testTri =
        some ⟨⟨1 / 3000, 1 / 3000⟩,
          min (maxCentroidDist ⟨1 / 3000, 1 / 3000⟩ testTri * 1.1) 50000⟩ ∧
      min (maxCentroidDist ⟨1 / 3000, 1 / 3000⟩ testTri * 1.1) (50000 : ℝ) ≤ 220) := by
  have hall : ∀ p ∈ testTri, calculateDistance ⟨1 / 3000, 1 / 3000⟩ p ≤ 200 := by
    intro p hp
    fin_cases hp <;>
      (apply calculateDistance_le_of_box <;> (rw [abs_le]; constructor <;> norm_num))
  refine ⟨testTri_centroid, hall, ?_, ?_⟩
  · exact (polygonToBoundingCircle_spec testTri ⟨1 / 3000, 1 / 3000⟩ testTri_centroid).1
  · exact (polygonToBoundingCircle_spec testTri ⟨1 / 3000, 1 / 3000⟩ testTri_centroid).2 hall
